import Mathlib

/-!
Verification development for the bobbin evaluation core: the workspace
manager (`src/eval/runner/workspace.py`) and the scorer pipeline
(`src/eval/scorer/{diff_scorer,test_scorer,injection_scorer,llm_judge}.py`).

Python floats are modelled as exact rationals (`ℚ`); Python's `round(x, n)`
(banker's rounding) is modelled by `roundHalfEven`/`roundTo`; Python dicts
returned by the scorers are modelled as Lean structures; subprocess and LLM
boundaries are modelled as explicit inputs (process outcome, raw judge
responses, git state).
-/

namespace Bobbin

/-! ## String scanning helpers (modelling the regex pieces used by
`test_scorer.py`).  Python `\d` is modelled by `Char.isDigit`, `\s` by
`Char.isWhitespace` (the inputs at stake are ASCII). -/

/-- Numeric value of a digit run, as Python `int()` of the captured text. -/
def digitsToNat (ds : List Char) : ℕ :=
  ds.foldl (fun acc c => 10 * acc + (c.toNat - 48)) 0

/-- `\d+` (greedy): the maximal leading digit run, requiring at least one
digit; returns its value and the rest of the input. -/
def readDigits (s : List Char) : Option (ℕ × List Char) :=
  let ds := s.takeWhile (fun c => c.isDigit)
  if ds.isEmpty then none
  else some (digitsToNat ds, s.dropWhile (fun c => c.isDigit))

/-- `\s*` (greedy). -/
def skipSpaces (s : List Char) : List Char :=
  s.dropWhile (fun c => c.isWhitespace)

/-- `\s+` (greedy): at least one whitespace character. -/
def skipSpaces1 (s : List Char) : Option (List Char) :=
  match s with
  | c :: rest => if c.isWhitespace then some (rest.dropWhile (fun c => c.isWhitespace)) else none
  | [] => none

/-- Python `str.startswith`, character by character. -/
def charsPrefix : List Char → List Char → Bool
  | [], _ => true
  | _ :: _, [] => false
  | c :: cs, d :: ds => c == d && charsPrefix cs ds

/-- `startswith` on strings. -/
def startsWith (p s : String) : Bool :=
  charsPrefix p.toList s.toList

/-- A literal piece of the pattern. -/
def litChars : List Char → List Char → Option (List Char)
  | [], s => some s
  | _ :: _, [] => none
  | c :: cs, d :: ds => if c = d then litChars cs ds else none

/-- `,?` (greedy). -/
def dropComma (s : List Char) : List Char :=
  match s with
  | c :: rest => if c = ',' then rest else s
  | [] => s

/-! ## `_parse_pytest_output` (`test_scorer.py:17-47`)

The pytest summary pattern is
`(?:(\d+) passed)?(?:,?\s*(\d+) failed)?(?:,?\s*(\d+) error(?:s|ed)?)?`
`(?:,?\s*(\d+) skipped)?\s+in\s+[\d.]+s`, applied with `re.search`.
Each optional group is modelled by a committed greedy attempt: for this
pattern a group that matches at a position can never be the reason the
remainder fails while skipping it would succeed (each group ends in a
letter word and the continuation requires whitespace-then-digit or
whitespace-then-`in`), so committed greedy matching agrees with Python's
backtracking search. -/

/-- `(?:(\d+) passed)?` group body. -/
def pytestGroupPassed (s : List Char) : Option (ℕ × List Char) := do
  let (n, s) ← readDigits s
  let s ← litChars " passed".toList s
  pure (n, s)

/-- `(?:,?\s*(\d+) <word>)?` group body (used for `failed` and `skipped`). -/
def pytestGroupCount (word : String) (s : List Char) : Option (ℕ × List Char) := do
  let s := dropComma s
  let s := skipSpaces s
  let (n, s) ← readDigits s
  let s ← litChars (" " ++ word).toList s
  pure (n, s)

/-- `(?:,?\s*(\d+) error(?:s|ed)?)?` group body. -/
def pytestGroupError (s : List Char) : Option (ℕ × List Char) := do
  let s := dropComma s
  let s := skipSpaces s
  let (n, s) ← readDigits s
  let s ← litChars " error".toList s
  let s := match s with
    | 's' :: rest => rest
    | 'e' :: 'd' :: rest => rest
    | _ => s
  pure (n, s)

/-- Run an optional group: on failure the position is unchanged and the
capture is `none`. -/
def tryOptGroup (g : List Char → Option (ℕ × List Char)) (s : List Char) :
    Option ℕ × List Char :=
  match g s with
  | some (n, rest) => (some n, rest)
  | none => (none, s)

/-- The mandatory tail `\s+in\s+[\d.]+s`. -/
def pytestTail (s : List Char) : Option Unit := do
  let s ← skipSpaces1 s
  let s ← litChars "in".toList s
  let s ← skipSpaces1 s
  let ds := s.takeWhile (fun c => c.isDigit || c = '.')
  if ds.isEmpty then none
  else do
    let s := s.dropWhile (fun c => c.isDigit || c = '.')
    let _ ← litChars "s".toList s
    pure ()

/-- Match the whole pytest pattern at one position, returning the four
captures (`none` = group did not participate, Python `match.group(i) is
None`). -/
def pytestMatchAt (s : List Char) : Option (Option ℕ × Option ℕ × Option ℕ × Option ℕ) :=
  let (g1, s) := tryOptGroup pytestGroupPassed s
  let (g2, s) := tryOptGroup (pytestGroupCount "failed") s
  let (g3, s) := tryOptGroup pytestGroupError s
  let (g4, s) := tryOptGroup (pytestGroupCount "skipped") s
  match pytestTail s with
  | some _ => some (g1, g2, g3, g4)
  | none => none

/-- `re.search`: the match at the leftmost position where the pattern
matches. -/
def pytestSearch (s : List Char) : Option (Option ℕ × Option ℕ × Option ℕ × Option ℕ) :=
  match pytestMatchAt s with
  | some g => some g
  | none =>
    match s with
    | [] => none
    | _ :: rest => pytestSearch rest

/-- Result of one framework parser; `none` models the empty dict `{}`. -/
structure ParseResult where
  framework : String
  passed : ℕ
  failed : ℕ
  skipped : ℕ
  total : ℕ
deriving DecidableEq, Repr

/-- `_parse_pytest_output` (`test_scorer.py:17-47`): search for the summary
pattern; absent capture groups count as 0 (`int(match.group(i) or 0)`);
`failed` in the result is failures plus errors. -/
def parsePytestOutput (output : String) : Option ParseResult :=
  match pytestSearch output.toList with
  | none => none
  | some (g1, g2, g3, g4) =>
    let passed := g1.getD 0
    let failed := g2.getD 0
    let errors := g3.getD 0
    let skipped := g4.getD 0
    some { framework := "pytest"
           passed := passed
           failed := failed + errors
           skipped := skipped
           total := passed + failed + errors + skipped }

/-! ## `_parse_cargo_test_output` (`test_scorer.py:50-82`)

Pattern `test result: \S+\.\s+(\d+) passed;\s+(\d+) failed;\s+(\d+) ignored;`
applied with `re.finditer`, accumulating counts over all non-overlapping
matches.  In `\S+\.` followed by `\s+`, backtracking forces the `\.` to be
the final character of the maximal non-whitespace run. -/

/-- Match the cargo pattern at one position; returns the three captures and
the rest of the input after the match (for `finditer` continuation). -/
def cargoMatchAt (s : List Char) : Option ((ℕ × ℕ × ℕ) × List Char) := do
  let s ← litChars "test result: ".toList s
  let run := s.takeWhile (fun c => !c.isWhitespace)
  let s := s.dropWhile (fun c => !c.isWhitespace)
  if 2 ≤ run.length ∧ run.getLast? = some '.' then do
    let s ← skipSpaces1 s
    let (p, s) ← readDigits s
    let s ← litChars " passed;".toList s
    let s ← skipSpaces1 s
    let (f, s) ← readDigits s
    let s ← litChars " failed;".toList s
    let s ← skipSpaces1 s
    let (i, s) ← readDigits s
    let s ← litChars " ignored;".toList s
    pure ((p, f, i), s)
  else none

/-- `re.finditer` accumulation: scan left to right, summing the captures of
each non-overlapping match and recording whether any match was found.
`fuel` bounds the number of scan steps; every step either advances one
character or consumes a whole match, so `length + 1` fuel always
suffices. -/
def cargoLoop : ℕ → List Char → ℕ × ℕ × ℕ × Bool
  | 0, _ => (0, 0, 0, false)
  | fuel + 1, s =>
    match cargoMatchAt s with
    | some ((p, f, i), rest) =>
      let (p', f', i', _) := cargoLoop fuel rest
      (p + p', f + f', i + i', true)
    | none =>
      match s with
      | [] => (0, 0, 0, false)
      | _ :: rest => cargoLoop fuel rest

/-- `_parse_cargo_test_output` (`test_scorer.py:50-82`). -/
def parseCargoTestOutput (output : String) : Option ParseResult :=
  let (passed, failed, ignored, found) := cargoLoop (output.toList.length + 1) output.toList
  if found then
    some { framework := "cargo-test"
           passed := passed
           failed := failed
           skipped := ignored
           total := passed + failed + ignored }
  else none

/-- `_parse_output` (`test_scorer.py:85-91`): try each parser in order
(pytest first, then cargo) and return the first non-empty result. -/
def parseOutput (output : String) : Option ParseResult :=
  match parsePytestOutput output with
  | some r => some r
  | none => parseCargoTestOutput output

/-! ## `run_tests` (`test_scorer.py:94-154`)

The subprocess boundary is modelled as an explicit outcome: either the
command completed with an exit code and captured streams, or it timed out
with whatever partial streams were captured before the kill (already
decoded; Python's `exc.stdout or ""` / byte decoding yields a string). -/

/-- Outcome of running the test command. -/
inductive ProcOutcome where
  | completed (exitCode : Int) (stdout stderr : String)
  | timedOut (stdout stderr : String)

/-- The dict returned by `run_tests`. -/
structure TestRunResult where
  passed : Bool
  total : ℕ
  failures : Int
  output : String
  exit_code : Int
  timed_out : Bool
  parsed : Option ParseResult
deriving DecidableEq, Repr

/-- `run_tests` (`test_scorer.py:94-154`): on completion `exit_code` is the
process return code; on timeout `exit_code = -1` and `timed_out = true`.
`output` is combined stdout+stderr, `passed` is `exit_code == 0`,
`failures` is the parsed count, else 0 on exit 0, else the `-1` sentinel. -/
def run_tests (outcome : ProcOutcome) : TestRunResult :=
  let exitCode : Int :=
    match outcome with
    | .completed c _ _ => c
    | .timedOut _ _ => -1
  let output : String :=
    match outcome with
    | .completed _ o e => o ++ e
    | .timedOut o e => o ++ e
  let timedOutFlag : Bool :=
    match outcome with
    | .completed _ _ _ => false
    | .timedOut _ _ => true
  let parsed := parseOutput output
  let failures : Int :=
    match parsed with
    | some p => (p.failed : Int)
    | none => if exitCode = 0 then 0 else -1
  let total : ℕ :=
    match parsed with
    | some p => p.total
    | none => 0
  { passed := exitCode == 0
    total := total
    failures := failures
    output := output
    exit_code := exitCode
    timed_out := timedOutFlag
    parsed := parsed }

/-! ## Python `round` on exact rationals

Python's builtin `round(x, n)` rounds to the nearest multiple of `10^-n`,
ties to the even multiple (banker's rounding). -/

/-- Round to the nearest integer, ties to even. -/
def roundHalfEven (x : ℚ) : ℤ :=
  if x - ⌊x⌋ < 1 / 2 then ⌊x⌋
  else if 1 / 2 < x - ⌊x⌋ then ⌊x⌋ + 1
  else if Even ⌊x⌋ then ⌊x⌋ else ⌊x⌋ + 1

/-- Python `round(x, digits)`. -/
def roundTo (digits : ℕ) (x : ℚ) : ℚ :=
  (roundHalfEven (x * 10 ^ digits) : ℚ) / 10 ^ digits

theorem floor_le_roundHalfEven (x : ℚ) :
    ⌊x⌋ ≤ roundHalfEven x ∧ roundHalfEven x ≤ ⌊x⌋ + 1 := by
  unfold roundHalfEven
  split_ifs <;> omega

theorem roundHalfEven_nonneg {x : ℚ} (hx : 0 ≤ x) : 0 ≤ roundHalfEven x := by
  have h := (floor_le_roundHalfEven x).1
  have : (0 : ℤ) ≤ ⌊x⌋ := Int.floor_nonneg.mpr hx
  omega

theorem roundHalfEven_le {x : ℚ} {N : ℤ} (hx : x ≤ N) : roundHalfEven x ≤ N := by
  have hfl : ⌊x⌋ ≤ N := by
    calc ⌊x⌋ ≤ ⌊(N : ℚ)⌋ := Int.floor_le_floor hx
    _ = N := Int.floor_intCast N
  have hup : x - ⌊x⌋ ≥ 1 / 2 → ⌊x⌋ + 1 ≤ N := by
    intro hhalf
    have hflx : (⌊x⌋ : ℚ) + 1 / 2 ≤ x := by linarith
    have : (⌊x⌋ : ℚ) < N := by linarith
    have : ⌊x⌋ < N := by exact_mod_cast this
    omega
  unfold roundHalfEven
  split_ifs with h1 h2 h3
  · exact hfl
  · exact hup (by linarith)
  · exact hfl
  · exact hup (by linarith)

theorem roundTo_nonneg {d : ℕ} {x : ℚ} (hx : 0 ≤ x) : 0 ≤ roundTo d x := by
  unfold roundTo
  have h10 : (0 : ℚ) < 10 ^ d := by positivity
  have : (0 : ℤ) ≤ roundHalfEven (x * 10 ^ d) :=
    roundHalfEven_nonneg (by positivity)
  exact div_nonneg (by exact_mod_cast this) (le_of_lt h10)

theorem roundTo_le_one {d : ℕ} {x : ℚ} (hx : x ≤ 1) : roundTo d x ≤ 1 := by
  unfold roundTo
  have h10 : (0 : ℚ) < 10 ^ d := by positivity
  have harg : x * 10 ^ d ≤ ((10 ^ d : ℤ) : ℚ) := by
    push_cast
    nlinarith
  have h := roundHalfEven_le harg
  rw [div_le_one h10]
  exact_mod_cast h

/-! ## Score arithmetic shared by `diff_scorer.py:128-142` and
`injection_scorer.py:50-63` (textually identical blocks in the source). -/

/-- `precision = |agent ∩ truth| / |agent|`, 0 when `agent` is empty. -/
def precisionOf (agent gt : Finset String) : ℚ :=
  if agent = ∅ then 0 else ((agent ∩ gt).card : ℚ) / (agent.card : ℚ)

/-- `recall = |agent ∩ truth| / |truth|`, 0 when `truth` is empty. -/
def recallOf (agent gt : Finset String) : ℚ :=
  if gt = ∅ then 0 else ((agent ∩ gt).card : ℚ) / (gt.card : ℚ)

/-- `f1 = 2*p*r/(p+r)` when `p+r > 0`, else 0. -/
def f1Of (p r : ℚ) : ℚ :=
  if p + r > 0 then 2 * p * r / (p + r) else 0

/-! ## `score_diff` (`diff_scorer.py:43-151`)

The two git invocations that produce the file sets are modelled as the
resulting `Finset String` inputs; the pure tail of the function
(infrastructure filtering, scores, rounding, sorted lists, exact match)
is embedded directly. -/

/-- `_INFRA_PREFIXES` (`diff_scorer.py:124`). -/
def INFRA_PREFIXES : List String := [".bobbin/", ".claude/"]

/-- Drop files under an infrastructure prefix (`diff_scorer.py:125-126`). -/
def dropInfra (files : Finset String) : Finset String :=
  files.filter (fun f => (INFRA_PREFIXES.any (fun p => startsWith p f)) = false)

/-- The dict returned by `score_diff`. -/
structure ScoreRecord where
  file_precision : ℚ
  file_recall : ℚ
  f1 : ℚ
  files_touched : List String
  ground_truth_files : List String
  exact_file_match : Bool
deriving DecidableEq, Repr

/-- `score_diff` (`diff_scorer.py:122-151`), from the agent file set and
the ground-truth file set onward. -/
def score_diff (agentFiles gtFiles : Finset String) : ScoreRecord :=
  let agent_files := dropInfra agentFiles
  let gt_files := dropInfra gtFiles
  let p := precisionOf agent_files gt_files
  let r := recallOf agent_files gt_files
  let f := f1Of p r
  { file_precision := roundTo 4 p
    file_recall := roundTo 4 r
    f1 := roundTo 4 f
    files_touched := agent_files.sort (· ≤ ·)
    ground_truth_files := gt_files.sort (· ≤ ·)
    exact_file_match := decide (agent_files = gt_files) }

/-- The dict returned by `score_injection_usage`. -/
structure InjectionRecord where
  injection_precision : ℚ
  injection_recall : ℚ
  injection_f1 : ℚ
  injected_and_touched : List String
  injected_not_touched : List String
  touched_not_injected : List String
deriving DecidableEq, Repr

/-- `score_injection_usage` (`injection_scorer.py:21-72`): set conversion,
the same precision/recall/f1 arithmetic, 4-decimal rounding, and the three
sorted overlap lists. -/
def score_injection_usage (injected_files files_touched : List String) : InjectionRecord :=
  let injected := injected_files.toFinset
  let touched := files_touched.toFinset
  let overlap := injected ∩ touched
  let p := precisionOf injected touched
  let r := recallOf injected touched
  let f := f1Of p r
  { injection_precision := roundTo 4 p
    injection_recall := roundTo 4 r
    injection_f1 := roundTo 4 f
    injected_and_touched := overlap.sort (· ≤ ·)
    injected_not_touched := (injected \ touched).sort (· ≤ ·)
    touched_not_injected := (touched \ injected).sort (· ≤ ·) }

/-! ## Pairwise LLM judge (`llm_judge.py`)

`DIMENSIONS = ("consistency", "completeness", "minimality")` becomes a
three-element inductive.  A raw judge response (the dict produced by JSON
parsing) is modelled with `Option` for every key that may be absent;
scores are rationals (JSON numbers).  The LLM calls themselves are
modelled as oracle inputs to `judge_pairwise`. -/

/-- The fixed rubric dimensions (`llm_judge.py:14`). -/
inductive Dim where
  | consistency
  | completeness
  | minimality
deriving DecidableEq, Repr

/-- One dimension entry of a raw judge response. -/
structure RawEntry where
  a : Option ℚ
  b : Option ℚ
  reasoning : Option String

/-- A raw judge response after JSON extraction. -/
structure RawJudgement where
  dimensions : Option (Dim → Option RawEntry)
  overall_winner : Option String
  reasoning : Option String

/-- One dimension entry of a validated (or merged) judgement. -/
structure JEntry where
  a : ℚ
  b : ℚ
  reasoning : String

/-- A validated single-call judgement (`_validate_judgement`'s cleaned
copy). -/
structure Judgement where
  dimensions : Dim → JEntry
  overall_winner : String
  reasoning : String

/-- The merged verdict returned by `_merge_results`. -/
structure MergedJudgement where
  dimensions : Dim → JEntry
  overall_winner : String
  reasoning : String
  bias_detected : Bool

/-- The per-dimension checks inside `_validate_judgement`
(`llm_judge.py:78-89`): the dimension must be present, each of the `a` and
`b` scores must be present and within `1 ≤ score ≤ 5`. -/
def checkDim (dims : Dim → Option RawEntry) (d : Dim) : Except String (ℚ × ℚ × String) :=
  match dims d with
  | none => Except.error "Judge response missing dimension"
  | some entry =>
    match entry.a with
    | none => Except.error "Dimension missing score for a"
    | some sa =>
      if ¬ (1 ≤ sa ∧ sa ≤ 5) then Except.error "Dimension score for a must be 1-5"
      else
        match entry.b with
        | none => Except.error "Dimension missing score for b"
        | some sb =>
          if ¬ (1 ≤ sb ∧ sb ≤ 5) then Except.error "Dimension score for b must be 1-5"
          else Except.ok (sa, sb, entry.reasoning.getD "")

/-- `_validate_judgement` (`llm_judge.py:66-106`): key presence, per-dimension
score checks, winner normalisation (`strip().lower()`) and check, and the
cleaned copy. -/
def validate_judgement (data : RawJudgement) : Except String Judgement := do
  match data.dimensions with
  | none => Except.error "Judge response missing dimensions key"
  | some dims =>
    match data.overall_winner with
    | none => Except.error "Judge response missing overall_winner key"
    | some ow => do
      let e1 ← checkDim dims Dim.consistency
      let e2 ← checkDim dims Dim.completeness
      let e3 ← checkDim dims Dim.minimality
      let winner := ow.trim.toLower
      if winner = "a" ∨ winner = "b" ∨ winner = "tie" then
        Except.ok
          { dimensions := fun d =>
              match d with
              | Dim.consistency => { a := e1.1, b := e1.2.1, reasoning := e1.2.2 }
              | Dim.completeness => { a := e2.1, b := e2.2.1, reasoning := e2.2.2 }
              | Dim.minimality => { a := e3.1, b := e3.2.1, reasoning := e3.2.2 }
            overall_winner := winner
            reasoning := data.reasoning.getD "" }
      else Except.error "overall_winner must be a, b, or tie"

/-- `_flip_result` (`llm_judge.py:151-178`): swap each dimension's `a`/`b`
scores and the winner labels; any winner other than `a`/`b` becomes
`tie`. -/
def flip_result (result : Judgement) : Judgement :=
  { dimensions := fun d =>
      { a := (result.dimensions d).b
        b := (result.dimensions d).a
        reasoning := (result.dimensions d).reasoning }
    overall_winner :=
      if result.overall_winner = "a" then "b"
      else if result.overall_winner = "b" then "a"
      else "tie"
    reasoning := result.reasoning }

/-- `_merge_results` (`llm_judge.py:181-213`): per-dimension scores are the
two-call averages rounded to 2 decimal places; the winner is kept when the
orderings agree and degraded to `tie` (with `bias_detected`) otherwise. -/
def merge_results (forward flipped_back : Judgement) : MergedJudgement :=
  { dimensions := fun d =>
      { a := roundTo 2 (((forward.dimensions d).a + (flipped_back.dimensions d).a) / 2)
        b := roundTo 2 (((forward.dimensions d).b + (flipped_back.dimensions d).b) / 2)
        reasoning := (forward.dimensions d).reasoning }
    overall_winner :=
      if forward.overall_winner = flipped_back.overall_winner then forward.overall_winner
      else "tie"
    reasoning := forward.reasoning
    bias_detected := forward.overall_winner ≠ flipped_back.overall_winner }

/-- `judge_pairwise` (`llm_judge.py:216-262`) with the two LLM calls
modelled as oracle raw responses: empty-diff rejection, validation of both
responses, un-flip, merge.  The `Except` result captures that an error
yields no partial judgement. -/
def judge_pairwise (diff_a diff_b : String)
    (forwardResp flippedResp : RawJudgement) : Except String MergedJudgement := do
  if diff_a.trim = "" then Except.error "diff_a is empty"
  else if diff_b.trim = "" then Except.error "diff_b is empty"
  else do
    let forward ← validate_judgement forwardResp
    let flipped_raw ← validate_judgement flippedResp
    let flipped_back := flip_result flipped_raw
    Except.ok (merge_results forward flipped_back)

/-! ## Workspace snapshots (`workspace.py:167-195`)

`snapshot` drives git through four commands: `git add -A`,
`git status --porcelain`, `git commit -m "bobbin-eval snapshot"
--allow-empty` (only when the status output is non-empty), and
`git rev-parse HEAD`.  Git itself is external, so its state is modelled
abstractly: a workspace carries the HEAD commit id, the tree recorded by
HEAD, the index tree, and the working-tree content (trees are abstract
`ℕ` values; untracked files are part of the working-tree content, which is
what `add -A` stages).  `nextId` supplies fresh commit ids. -/

/-- Abstract git state of one workspace. -/
structure GitState where
  headHash : ℕ
  headTree : ℕ
  indexTree : ℕ
  worktree : ℕ
  nextId : ℕ
deriving DecidableEq, Repr

/-- `git add -A`: stage all tracked and untracked changes. -/
def gitAddAll (s : GitState) : GitState :=
  { s with indexTree := s.worktree }

/-- `git status --porcelain` prints nothing exactly when both the index and
the working tree agree with HEAD. -/
def gitStatusClean (s : GitState) : Bool :=
  s.indexTree == s.headTree && s.worktree == s.headTree

/-- `git commit`: a new commit with a fresh id recording the index tree. -/
def gitCommit (s : GitState) : GitState :=
  { headHash := s.nextId
    headTree := s.indexTree
    indexTree := s.indexTree
    worktree := s.worktree
    nextId := s.nextId + 1 }

/-- `snapshot` (`workspace.py:167-195`): stage everything; if the status is
clean return the current HEAD, otherwise commit and return the new
HEAD. -/
def snapshot (s : GitState) : GitState × ℕ :=
  let staged := gitAddAll s
  if gitStatusClean staged then (staged, staged.headHash)
  else
    let committed := gitCommit staged
    (committed, committed.headHash)

/-! ## Snapshot commit authorship (`workspace.py:185-191`)

The commit is issued by exactly this argument vector; git determines the
commit's author from `--author=...` / `-c user.name=... -c user.email=...`
arguments when present, and from the ambient configuration
(`user.name`/`user.email`, `GIT_AUTHOR_*` environment) otherwise. -/

/-- The literal commit command from `workspace.py:186`. -/
def snapshotCommitCmd : List String :=
  ["git", "commit", "-m", "bobbin-eval snapshot", "--allow-empty"]

/-- Whether a git commit argument vector overrides the ambient authorship
configuration. -/
def overridesAuthor (cmd : List String) : Bool :=
  cmd.any (fun arg =>
    startsWith "--author=" arg
      || startsWith "user.name=" arg
      || startsWith "user.email=" arg
      || arg == "-c")

/-- Author recorded on the commit, as a function of the command and the
ambient git configuration: the ambient identity is used unless the command
overrides it. -/
def commitAuthor (cmd : List String) (ambient : String) : String :=
  if overridesAuthor cmd then "bobbin-eval" else ambient

/-! ## Claims -/

/-- C5: snapshot is idempotent: for every workspace, calling snapshot twice
with no intervening modification of the working tree returns the identical
commit hash, because the second call stages nothing, creates no commit,
and returns the current HEAD. -/
theorem C5_snapshot_idempotent (s : GitState) :
    gitAddAll (snapshot s).1 = (snapshot s).1 ∧
    snapshot (snapshot s).1 = ((snapshot s).1, (snapshot s).2) ∧
    (snapshot s).2 = (snapshot s).1.headHash := by
  by_cases h : s.worktree = s.headTree <;>
    simp [snapshot, gitAddAll, gitCommit, gitStatusClean, h]

/-- C4: the snapshot commit command carries no author override, so (contrary
to the claim and to the code's own comment) the commit's authorship follows
the ambient git configuration: two runs differing only in that configuration
produce differently-attributed commits. -/
theorem C4_snapshot_author_depends_on_ambient_config :
    overridesAuthor snapshotCommitCmd = false ∧
    commitAuthor snapshotCommitCmd "alice <alice@example.com>" ≠
      commitAuthor snapshotCommitCmd "bob <bob@example.com>" := by
  decide

/-- C7: for every completed (non-timed-out) test run, `passed` is true
exactly when the exit code is 0, regardless of whether any parser matched;
an exit-code-0 run whose output no parser recognizes reports
`passed = true`, `total = 0`, `failures = 0`. -/
theorem C7_passed_iff_exit_zero (ec : Int) (o e : String) :
    ((run_tests (ProcOutcome.completed ec o e)).passed = true ↔ ec = 0) ∧
    (parseOutput (o ++ e) = none → ec = 0 →
      (run_tests (ProcOutcome.completed ec o e)).passed = true ∧
      (run_tests (ProcOutcome.completed ec o e)).total = 0 ∧
      (run_tests (ProcOutcome.completed ec o e)).failures = 0) := by
  constructor
  · simp [run_tests]
  · intro hp h0
    simp [run_tests, hp, h0]

/-- Witness for C7 at a concrete unparsable exit-0 run. -/
theorem C7_witness :
    (run_tests (ProcOutcome.completed 0 "hello" "")).passed = true ∧
    (run_tests (ProcOutcome.completed 0 "hello" "")).total = 0 ∧
    (run_tests (ProcOutcome.completed 0 "hello" "")).failures = 0 :=
  (C7_passed_iff_exit_zero 0 "hello" "").2 (by decide) rfl

/-- A string of length zero is empty. -/
theorem string_eq_empty_of_length_zero {o : String} (h : o.length = 0) : o = "" := by
  cases o with
  | mk data =>
    cases data with
    | nil => rfl
    | cons c cs => simp [String.length] at h

/-- C8: every timed-out test run reports `passed = false`,
`exit_code = -1`, `timed_out = true`, and its `output` is the combined
stdout and stderr captured before the kill (non-empty if any was
produced). -/
theorem C8_timeout_result (o e : String) :
    (run_tests (ProcOutcome.timedOut o e)).passed = false ∧
    (run_tests (ProcOutcome.timedOut o e)).exit_code = -1 ∧
    (run_tests (ProcOutcome.timedOut o e)).timed_out = true ∧
    (run_tests (ProcOutcome.timedOut o e)).output = o ++ e ∧
    ((o ≠ "" ∨ e ≠ "") → (run_tests (ProcOutcome.timedOut o e)).output ≠ "") := by
  refine ⟨by simp [run_tests], by simp [run_tests], by simp [run_tests], by simp [run_tests], ?_⟩
  intro hne hempty
  have houtput : (run_tests (ProcOutcome.timedOut o e)).output = o ++ e := by
    simp [run_tests]
  rw [houtput] at hempty
  have hlen : o.length + e.length = 0 := by
    have := congrArg String.length hempty
    simpa [String.length_append] using this
  have ho : o = "" := string_eq_empty_of_length_zero (by omega)
  have he : e = "" := string_eq_empty_of_length_zero (by omega)
  rcases hne with h | h
  · exact h ho
  · exact h he

/-- Witness for C8: a timed-out run with partial output preserved. -/
theorem C8_witness :
    (run_tests (ProcOutcome.timedOut "partial" "")).output ≠ "" :=
  (C8_timeout_result "partial" "").2.2.2.2 (Or.inl (by decide))

/-- C10: a completed run with non-zero exit code and output no parser
recognizes gets `failures = -1` (the unknown-count sentinel) and
`total = 0`; in the unparsable case `failures = 0` exactly when the exit
code is 0. -/
theorem C10_unparsable_failure_sentinel (ec : Int) (o e : String)
    (hp : parseOutput (o ++ e) = none) :
    (ec ≠ 0 →
      (run_tests (ProcOutcome.completed ec o e)).failures = -1 ∧
      (run_tests (ProcOutcome.completed ec o e)).total = 0) ∧
    ((run_tests (ProcOutcome.completed ec o e)).failures = 0 ↔ ec = 0) := by
  constructor
  · intro h0
    simp [run_tests, hp, h0]
  · by_cases h0 : ec = 0 <;> simp [run_tests, hp, h0]

/-- Witness for C10 at a concrete unparsable failing run. -/
theorem C10_witness :
    (run_tests (ProcOutcome.completed 2 "garbage" "")).failures = -1 ∧
    (run_tests (ProcOutcome.completed 2 "garbage" "")).total = 0 :=
  (C10_unparsable_failure_sentinel 2 "garbage" "" (by decide)).1 (by decide)

/-- Real `cargo test` summary output (cargo has printed a trailing
`finished in <time>s` on its result line since Rust 1.52). -/
def cargoRealOutput : String :=
  "test result: ok. 1 passed; 0 failed; 0 ignored; 0 measured; 0 filtered out; finished in 0.05s"

/-- C3: on real cargo-test output (whose summary line ends in
`finished in 0.05s`) the pytest pattern — all of whose count groups are
optional — matches the bare ` in 0.05s` with zero counts, so the chain
attributes the output to pytest with `total = 0` instead of returning the
cargo parser's counts, contrary to the claim. -/
theorem C3_chain_misattributes_cargo_output :
    parseOutput cargoRealOutput =
      some { framework := "pytest", passed := 0, failed := 0, skipped := 0, total := 0 } ∧
    parseCargoTestOutput cargoRealOutput =
      some { framework := "cargo-test", passed := 1, failed := 0, skipped := 0, total := 1 } ∧
    (parseOutput cargoRealOutput).map ParseResult.framework ≠ some "cargo-test" := by
  decide

/-- Helper: rounding zero gives zero. -/
theorem roundTo_zero (d : ℕ) : roundTo d 0 = 0 := by
  unfold roundTo roundHalfEven
  norm_num

/-- Helper: an empty filtered ground-truth set forces all three returned
scores to 0. -/
theorem score_diff_zero_of_empty_truth (agentFiles gtFiles : Finset String)
    (h : dropInfra gtFiles = ∅) :
    (score_diff agentFiles gtFiles).file_precision = 0 ∧
    (score_diff agentFiles gtFiles).file_recall = 0 ∧
    (score_diff agentFiles gtFiles).f1 = 0 := by
  have hprec : precisionOf (dropInfra agentFiles) (dropInfra gtFiles) = 0 := by
    unfold precisionOf
    split_ifs with ha
    · rfl
    · simp [h]
  have hrec : recallOf (dropInfra agentFiles) (dropInfra gtFiles) = 0 := by
    unfold recallOf
    simp [h]
  have hf00 : f1Of 0 0 = 0 := by
    unfold f1Of
    norm_num
  refine ⟨?_, ?_, ?_⟩ <;>
    simp [score_diff, hprec, hrec, hf00, roundTo_zero]

/-- C1 counterexample: with both file sets empty the scorer returns
precision = recall = f1 = 0.0, not the claimed 1.0. -/
theorem C1_counterexample :
    ¬ ((score_diff ∅ ∅).file_precision = 1 ∧
       (score_diff ∅ ∅).file_recall = 1 ∧
       (score_diff ∅ ∅).f1 = 1) := by
  intro hcl
  have h0 := score_diff_zero_of_empty_truth ∅ ∅ (by rfl)
  rw [h0.1] at hcl
  exact absurd hcl.1 (by norm_num)

/-- C1 (amended): whenever the ground-truth set is empty after
infrastructure filtering — whether or not the agent set is empty — the
returned precision, recall and f1 are all 0.0 (not 1.0 in the
empty-vs-empty case). -/
theorem C1_empty_truth_scores_zero (agentFiles gtFiles : Finset String)
    (h : dropInfra gtFiles = ∅) :
    (score_diff agentFiles gtFiles).file_precision = 0 ∧
    (score_diff agentFiles gtFiles).file_recall = 0 ∧
    (score_diff agentFiles gtFiles).f1 = 0 :=
  score_diff_zero_of_empty_truth agentFiles gtFiles h

/-- Witness for C1's amended claim: non-empty agent set, empty ground
truth. -/
theorem C1_witness :
    (score_diff {"z"} ∅).file_precision = 0 ∧
    (score_diff {"z"} ∅).file_recall = 0 ∧
    (score_diff {"z"} ∅).f1 = 0 :=
  C1_empty_truth_scores_zero {"z"} ∅ (by decide)

/-! ### C6: score invariants -/

theorem precisionOf_nonneg (A G : Finset String) : 0 ≤ precisionOf A G := by
  unfold precisionOf
  split_ifs
  · exact le_refl 0
  · positivity

theorem recallOf_nonneg (A G : Finset String) : 0 ≤ recallOf A G := by
  unfold recallOf
  split_ifs
  · exact le_refl 0
  · positivity

theorem precisionOf_le_one (A G : Finset String) : precisionOf A G ≤ 1 := by
  unfold precisionOf
  split_ifs with h
  · norm_num
  · have hpos : (0 : ℚ) < A.card := by
      exact_mod_cast Finset.card_pos.mpr (Finset.nonempty_iff_ne_empty.mpr h)
    rw [div_le_one hpos]
    exact_mod_cast Finset.card_le_card Finset.inter_subset_left

theorem recallOf_le_one (A G : Finset String) : recallOf A G ≤ 1 := by
  unfold recallOf
  split_ifs with h
  · norm_num
  · have hpos : (0 : ℚ) < G.card := by
      exact_mod_cast Finset.card_pos.mpr (Finset.nonempty_iff_ne_empty.mpr h)
    rw [div_le_one hpos]
    exact_mod_cast Finset.card_le_card Finset.inter_subset_right

theorem precisionOf_eq_zero_iff (A G : Finset String) :
    precisionOf A G = 0 ↔ A ∩ G = ∅ := by
  unfold precisionOf
  split_ifs with h
  · simp [h, Finset.empty_inter]
  · have hpos : (0 : ℚ) < A.card := by
      exact_mod_cast Finset.card_pos.mpr (Finset.nonempty_iff_ne_empty.mpr h)
    rw [div_eq_zero_iff]
    simp only [Nat.cast_eq_zero, Finset.card_eq_zero]
    constructor
    · rintro (h1 | h1)
      · exact h1
      · exact absurd h1 h
    · intro h1
      exact Or.inl h1

theorem recallOf_eq_zero_iff (A G : Finset String) :
    recallOf A G = 0 ↔ A ∩ G = ∅ := by
  unfold recallOf
  split_ifs with h
  · simp [h, Finset.inter_empty]
  · have hpos : (0 : ℚ) < G.card := by
      exact_mod_cast Finset.card_pos.mpr (Finset.nonempty_iff_ne_empty.mpr h)
    rw [div_eq_zero_iff]
    simp only [Nat.cast_eq_zero, Finset.card_eq_zero]
    constructor
    · rintro (h1 | h1)
      · exact h1
      · exact absurd h1 h
    · intro h1
      exact Or.inl h1

theorem f1Of_nonneg {p r : ℚ} (hp : 0 ≤ p) (hr : 0 ≤ r) : 0 ≤ f1Of p r := by
  unfold f1Of
  split_ifs with h
  · exact div_nonneg (mul_nonneg (mul_nonneg (by norm_num) hp) hr) (le_of_lt h)
  · exact le_refl 0

theorem f1Of_le_one {p r : ℚ} (hp0 : 0 ≤ p) (hp1 : p ≤ 1) (hr0 : 0 ≤ r) (hr1 : r ≤ 1) :
    f1Of p r ≤ 1 := by
  unfold f1Of
  split_ifs with h
  · rw [div_le_one h]
    nlinarith
  · norm_num

theorem f1Of_formula {p r : ℚ} (hp : 0 ≤ p) (hr : 0 ≤ r) (h : p + r ≠ 0) :
    f1Of p r = 2 * p * r / (p + r) := by
  unfold f1Of
  rw [if_pos (lt_of_le_of_ne (by linarith) (Ne.symm h))]

/-- For precision and recall computed from one pair of sets, f1 vanishes
exactly when their sum does (either both are positive — the intersection
is non-empty — or both are zero). -/
theorem f1_zero_iff_sets (A G : Finset String) :
    f1Of (precisionOf A G) (recallOf A G) = 0 ↔
      precisionOf A G + recallOf A G = 0 := by
  have hp0 := precisionOf_nonneg A G
  have hr0 := recallOf_nonneg A G
  constructor
  · intro hf
    by_contra hne
    have hpos : 0 < precisionOf A G + recallOf A G :=
      lt_of_le_of_ne (by linarith) (Ne.symm hne)
    unfold f1Of at hf
    rw [if_pos hpos, div_eq_zero_iff] at hf
    rcases hf with hf | hf
    · have hzero : precisionOf A G = 0 ∨ recallOf A G = 0 := by
        rcases mul_eq_zero.mp hf with h2 | hrz
        · rcases mul_eq_zero.mp h2 with h2 | hpz
          · norm_num at h2
          · exact Or.inl hpz
        · exact Or.inr hrz
      rcases hzero with h1 | h1
      · have h2 := (recallOf_eq_zero_iff A G).mpr ((precisionOf_eq_zero_iff A G).mp h1)
        rw [h1, h2] at hpos
        norm_num at hpos
      · have h2 := (precisionOf_eq_zero_iff A G).mpr ((recallOf_eq_zero_iff A G).mp h1)
        rw [h1, h2] at hpos
        norm_num at hpos
    · exact hne hf
  · intro hsum
    have hp : precisionOf A G = 0 := by linarith
    have hr : recallOf A G = 0 := by linarith
    rw [hp, hr]
    unfold f1Of
    norm_num

/-- C6 counterexample: for agent files {a,b,c} and ground truth {a}, the
returned (4-decimal-rounded) precision 0.3333 and recall 1.0 do not
satisfy the harmonic-mean identity with the returned f1 0.5, though their
sum is non-zero. -/
theorem C6_counterexample :
    (score_diff {"a", "b", "c"} {"a"}).file_precision +
      (score_diff {"a", "b", "c"} {"a"}).file_recall ≠ 0 ∧
    (score_diff {"a", "b", "c"} {"a"}).f1 ≠
      2 * (score_diff {"a", "b", "c"} {"a"}).file_precision *
        (score_diff {"a", "b", "c"} {"a"}).file_recall /
        ((score_diff {"a", "b", "c"} {"a"}).file_precision +
          (score_diff {"a", "b", "c"} {"a"}).file_recall) := by
  have hA : dropInfra {"a", "b", "c"} = ({"a", "b", "c"} : Finset String) := by decide
  have hG : dropInfra {"a"} = ({"a"} : Finset String) := by decide
  have hp : precisionOf (dropInfra {"a", "b", "c"}) (dropInfra {"a"}) = 1 / 3 := by
    rw [hA, hG]
    unfold precisionOf
    rw [if_neg (by decide),
        show (({"a", "b", "c"} : Finset String) ∩ {"a"}).card = 1 from by decide,
        show ({"a", "b", "c"} : Finset String).card = 3 from by decide]
    norm_num
  have hr : recallOf (dropInfra {"a", "b", "c"}) (dropInfra {"a"}) = 1 := by
    rw [hA, hG]
    unfold recallOf
    rw [if_neg (by decide),
        show (({"a", "b", "c"} : Finset String) ∩ {"a"}).card = 1 from by decide,
        show ({"a"} : Finset String).card = 1 from by decide]
    norm_num
  have hf : f1Of ((1 : ℚ) / 3) 1 = 1 / 2 := by
    unfold f1Of
    norm_num
  have h1 : (score_diff {"a", "b", "c"} {"a"}).file_precision = 3333 / 10000 := by
    show roundTo 4 (precisionOf (dropInfra {"a", "b", "c"}) (dropInfra {"a"})) = 3333 / 10000
    rw [hp]
    norm_num [roundTo, roundHalfEven]
  have h2 : (score_diff {"a", "b", "c"} {"a"}).file_recall = 1 := by
    show roundTo 4 (recallOf (dropInfra {"a", "b", "c"}) (dropInfra {"a"})) = 1
    rw [hr]
    norm_num [roundTo, roundHalfEven]
  have h3 : (score_diff {"a", "b", "c"} {"a"}).f1 = 1 / 2 := by
    show roundTo 4 (f1Of (precisionOf (dropInfra {"a", "b", "c"}) (dropInfra {"a"}))
      (recallOf (dropInfra {"a", "b", "c"}) (dropInfra {"a"}))) = 1 / 2
    rw [hp, hr, hf]
    norm_num [roundTo, roundHalfEven]
  rw [h1, h2, h3]
  norm_num

/-- C6 (amended): all returned scores of both scorers lie in [0,1]; the
identities `f1 = 0 ↔ precision + recall = 0` and (otherwise)
`f1 = 2·p·r/(p+r)` hold of the exact scores computed before the 4-decimal
rounding, and every returned score is exactly that rounding of the exact
one — after rounding the harmonic-mean identity holds only approximately. -/
theorem C6_score_invariants (A G : Finset String) (il tl : List String) :
    (0 ≤ (score_diff A G).file_precision ∧ (score_diff A G).file_precision ≤ 1) ∧
    (0 ≤ (score_diff A G).file_recall ∧ (score_diff A G).file_recall ≤ 1) ∧
    (0 ≤ (score_diff A G).f1 ∧ (score_diff A G).f1 ≤ 1) ∧
    (0 ≤ (score_injection_usage il tl).injection_precision ∧
      (score_injection_usage il tl).injection_precision ≤ 1) ∧
    (0 ≤ (score_injection_usage il tl).injection_recall ∧
      (score_injection_usage il tl).injection_recall ≤ 1) ∧
    (0 ≤ (score_injection_usage il tl).injection_f1 ∧
      (score_injection_usage il tl).injection_f1 ≤ 1) ∧
    (score_diff A G).file_precision = roundTo 4 (precisionOf (dropInfra A) (dropInfra G)) ∧
    (score_diff A G).file_recall = roundTo 4 (recallOf (dropInfra A) (dropInfra G)) ∧
    (score_diff A G).f1 =
      roundTo 4 (f1Of (precisionOf (dropInfra A) (dropInfra G))
        (recallOf (dropInfra A) (dropInfra G))) ∧
    (score_injection_usage il tl).injection_f1 =
      roundTo 4 (f1Of (precisionOf il.toFinset tl.toFinset)
        (recallOf il.toFinset tl.toFinset)) ∧
    (f1Of (precisionOf (dropInfra A) (dropInfra G)) (recallOf (dropInfra A) (dropInfra G)) = 0 ↔
      precisionOf (dropInfra A) (dropInfra G) + recallOf (dropInfra A) (dropInfra G) = 0) ∧
    (f1Of (precisionOf il.toFinset tl.toFinset) (recallOf il.toFinset tl.toFinset) = 0 ↔
      precisionOf il.toFinset tl.toFinset + recallOf il.toFinset tl.toFinset = 0) ∧
    (precisionOf (dropInfra A) (dropInfra G) + recallOf (dropInfra A) (dropInfra G) ≠ 0 →
      f1Of (precisionOf (dropInfra A) (dropInfra G)) (recallOf (dropInfra A) (dropInfra G)) =
        2 * precisionOf (dropInfra A) (dropInfra G) * recallOf (dropInfra A) (dropInfra G) /
          (precisionOf (dropInfra A) (dropInfra G) + recallOf (dropInfra A) (dropInfra G))) ∧
    (precisionOf il.toFinset tl.toFinset + recallOf il.toFinset tl.toFinset ≠ 0 →
      f1Of (precisionOf il.toFinset tl.toFinset) (recallOf il.toFinset tl.toFinset) =
        2 * precisionOf il.toFinset tl.toFinset * recallOf il.toFinset tl.toFinset /
          (precisionOf il.toFinset tl.toFinset + recallOf il.toFinset tl.toFinset)) := by
  refine ⟨⟨?_, ?_⟩, ⟨?_, ?_⟩, ⟨?_, ?_⟩, ⟨?_, ?_⟩, ⟨?_, ?_⟩, ⟨?_, ?_⟩,
    rfl, rfl, rfl, rfl, f1_zero_iff_sets _ _, f1_zero_iff_sets _ _, ?_, ?_⟩
  · exact roundTo_nonneg (precisionOf_nonneg _ _)
  · exact roundTo_le_one (precisionOf_le_one _ _)
  · exact roundTo_nonneg (recallOf_nonneg _ _)
  · exact roundTo_le_one (recallOf_le_one _ _)
  · exact roundTo_nonneg (f1Of_nonneg (precisionOf_nonneg _ _) (recallOf_nonneg _ _))
  · exact roundTo_le_one (f1Of_le_one (precisionOf_nonneg _ _) (precisionOf_le_one _ _)
      (recallOf_nonneg _ _) (recallOf_le_one _ _))
  · exact roundTo_nonneg (precisionOf_nonneg _ _)
  · exact roundTo_le_one (precisionOf_le_one _ _)
  · exact roundTo_nonneg (recallOf_nonneg _ _)
  · exact roundTo_le_one (recallOf_le_one _ _)
  · exact roundTo_nonneg (f1Of_nonneg (precisionOf_nonneg _ _) (recallOf_nonneg _ _))
  · exact roundTo_le_one (f1Of_le_one (precisionOf_nonneg _ _) (precisionOf_le_one _ _)
      (recallOf_nonneg _ _) (recallOf_le_one _ _))
  · exact f1Of_formula (precisionOf_nonneg _ _) (recallOf_nonneg _ _)
  · exact f1Of_formula (precisionOf_nonneg _ _) (recallOf_nonneg _ _)

/-- Witness for C6's amended claim at a concrete pair with non-zero
precision + recall. -/
theorem C6_witness :
    f1Of (precisionOf (dropInfra {"a"}) (dropInfra {"a"}))
        (recallOf (dropInfra {"a"}) (dropInfra {"a"})) =
      2 * precisionOf (dropInfra {"a"}) (dropInfra {"a"}) *
        recallOf (dropInfra {"a"}) (dropInfra {"a"}) /
        (precisionOf (dropInfra {"a"}) (dropInfra {"a"}) +
          recallOf (dropInfra {"a"}) (dropInfra {"a"})) := by
  have h := C6_score_invariants {"a"} {"a"} ["a"] ["a"]
  refine h.2.2.2.2.2.2.2.2.2.2.2.2.1 ?_
  have hG : dropInfra {"a"} = ({"a"} : Finset String) := by decide
  rw [hG]
  unfold precisionOf recallOf
  rw [show (({"a"} : Finset String) ∩ {"a"}).card = 1 from by decide,
      show ({"a"} : Finset String).card = 1 from by decide]
  norm_num

/-! ### C2: merged judgement -/

/-- A forward judgement with a score of 1.001 (legal: within [1,5]) on
every dimension's side A. -/
def judgeA : Judgement :=
  { dimensions := fun _ => { a := 1001 / 1000, b := 1, reasoning := "" }
    overall_winner := "a"
    reasoning := "" }

/-- A flipped-call judgement naming the flipped first position (`a` there,
i.e. the original B) loser, so that after un-flipping it agrees with
`judgeA`. -/
def judgeB : Judgement :=
  { dimensions := fun _ => { a := 5, b := 1, reasoning := "" }
    overall_winner := "b"
    reasoning := "" }

/-- C2 counterexample: for validated scores 1.001 (forward) and 1
(un-flipped), the merged score is `round((1.001+1)/2, 2) = 1.0`, not the
arithmetic mean 1.0005. -/
theorem C2_counterexample :
    1 ≤ (judgeA.dimensions Dim.consistency).a ∧
    (judgeA.dimensions Dim.consistency).a ≤ 5 ∧
    1 ≤ ((flip_result judgeB).dimensions Dim.consistency).a ∧
    ((flip_result judgeB).dimensions Dim.consistency).a ≤ 5 ∧
    ((merge_results judgeA (flip_result judgeB)).dimensions Dim.consistency).a ≠
      ((judgeA.dimensions Dim.consistency).a +
        ((flip_result judgeB).dimensions Dim.consistency).a) / 2 := by
  refine ⟨by norm_num [judgeA], by norm_num [judgeA],
    by norm_num [flip_result, judgeB], by norm_num [flip_result, judgeB], ?_⟩
  have hm : ((merge_results judgeA (flip_result judgeB)).dimensions Dim.consistency).a = 1 := by
    show roundTo 2 (((judgeA.dimensions Dim.consistency).a +
      ((flip_result judgeB).dimensions Dim.consistency).a) / 2) = 1
    norm_num [judgeA, judgeB, flip_result, roundTo, roundHalfEven]
  have hmean : ((judgeA.dimensions Dim.consistency).a +
      ((flip_result judgeB).dimensions Dim.consistency).a) / 2 = 2001 / 2000 := by
    norm_num [judgeA, judgeB, flip_result]
  rw [hm, hmean]
  norm_num

/-- C2 (amended): for every forward and un-flipped judgement pair, the
merged winner is the common winner (bias false) when they agree and `tie`
(bias true) when they disagree, and each dimension's merged score for each
side is the arithmetic mean of the two scores rounded to 2 decimal
places. -/
theorem C2_merge_flip_and_draw (f r : Judgement) :
    (f.overall_winner = (flip_result r).overall_winner →
      (merge_results f (flip_result r)).overall_winner = f.overall_winner ∧
      (merge_results f (flip_result r)).bias_detected = false) ∧
    (f.overall_winner ≠ (flip_result r).overall_winner →
      (merge_results f (flip_result r)).overall_winner = "tie" ∧
      (merge_results f (flip_result r)).bias_detected = true) ∧
    (∀ d : Dim,
      ((merge_results f (flip_result r)).dimensions d).a =
        roundTo 2 (((f.dimensions d).a + ((flip_result r).dimensions d).a) / 2) ∧
      ((merge_results f (flip_result r)).dimensions d).b =
        roundTo 2 (((f.dimensions d).b + ((flip_result r).dimensions d).b) / 2)) := by
  refine ⟨?_, ?_, fun d => ⟨rfl, rfl⟩⟩
  · intro h
    constructor
    · simp [merge_results, h]
    · simp [merge_results, h]
  · intro h
    constructor
    · simp [merge_results, h]
    · simp [merge_results, h]

/-- Witness for C2's amended claim: agreeing winners merge without bias. -/
theorem C2_witness :
    (merge_results judgeA (flip_result judgeB)).overall_winner = "a" ∧
    (merge_results judgeA (flip_result judgeB)).bias_detected = false :=
  (C2_merge_flip_and_draw judgeA judgeB).1 (by simp [judgeA, judgeB, flip_result])

/-! ### C9: judge error handling -/

/-- The entry a raw response carries for one dimension (`none` when either
the `dimensions` key or that dimension is missing). -/
def dimEntry (r : RawJudgement) (d : Dim) : Option RawEntry :=
  match r.dimensions with
  | none => none
  | some dims => dims d

/-- The raw response's winner token is absent or, after `strip().lower()`,
not one of `a`, `b`, `tie`. -/
def winnerUnrecognized (r : RawJudgement) : Prop :=
  match r.overall_winner with
  | none => True
  | some w => ¬ (w.trim.toLower = "a" ∨ w.trim.toLower = "b" ∨ w.trim.toLower = "tie")

/-- The invalid-response conditions of the claim: a missing rubric
dimension, a missing per-position score, a score outside [1,5], or an
unrecognized winner token. -/
def responseInvalid (r : RawJudgement) : Prop :=
  (∃ d, dimEntry r d = none) ∨
  (∃ d entry, dimEntry r d = some entry ∧ (entry.a = none ∨ entry.b = none)) ∨
  (∃ d entry s, dimEntry r d = some entry ∧ (entry.a = some s ∨ entry.b = some s) ∧
    ¬ (1 ≤ s ∧ s ≤ 5)) ∨
  winnerUnrecognized r

theorem checkDim_ok {dims : Dim → Option RawEntry} {d : Dim} {v : ℚ × ℚ × String}
    (h : checkDim dims d = Except.ok v) :
    ∃ entry, dims d = some entry ∧
      (∃ sa, entry.a = some sa ∧ 1 ≤ sa ∧ sa ≤ 5) ∧
      (∃ sb, entry.b = some sb ∧ 1 ≤ sb ∧ sb ≤ 5) := by
  unfold checkDim at h
  cases hd : dims d with
  | none =>
    simp only [hd] at h
    exact absurd h (by simp)
  | some entry =>
    simp only [hd] at h
    cases ha : entry.a with
    | none =>
      simp only [ha] at h
      exact absurd h (by simp)
    | some sa =>
      simp only [ha] at h
      by_cases h1 : 1 ≤ sa ∧ sa ≤ 5
      · rw [if_neg (not_not_intro h1)] at h
        cases hb : entry.b with
        | none =>
          simp only [hb] at h
          exact absurd h (by simp)
        | some sb =>
          simp only [hb] at h
          by_cases h2 : 1 ≤ sb ∧ sb ≤ 5
          · exact ⟨entry, rfl, ⟨sa, ha, h1.1, h1.2⟩, ⟨sb, hb, h2.1, h2.2⟩⟩
          · rw [if_pos h2] at h
            exact absurd h (by simp)
      · rw [if_pos h1] at h
        exact absurd h (by simp)

theorem validate_ok_inv {r : RawJudgement} {j : Judgement}
    (h : validate_judgement r = Except.ok j) :
    ∃ dims ow, r.dimensions = some dims ∧ r.overall_winner = some ow ∧
      (∀ d, ∃ entry, dims d = some entry ∧
        (∃ sa, entry.a = some sa ∧ 1 ≤ sa ∧ sa ≤ 5) ∧
        (∃ sb, entry.b = some sb ∧ 1 ≤ sb ∧ sb ≤ 5)) ∧
      (ow.trim.toLower = "a" ∨ ow.trim.toLower = "b" ∨ ow.trim.toLower = "tie") := by
  unfold validate_judgement at h
  cases hdims : r.dimensions with
  | none =>
    simp only [hdims] at h
    exact absurd h (by simp)
  | some dims =>
    simp only [hdims] at h
    cases how : r.overall_winner with
    | none =>
      simp only [how] at h
      exact absurd h (by simp)
    | some ow =>
      simp only [how] at h
      cases hc1 : checkDim dims Dim.consistency with
      | error e =>
        simp only [hc1, Bind.bind, Except.bind] at h
        exact absurd h (by simp)
      | ok e1 =>
        simp only [hc1, Bind.bind, Except.bind] at h
        cases hc2 : checkDim dims Dim.completeness with
        | error e =>
          simp only [hc2, Except.bind] at h
          exact absurd h (by simp)
        | ok e2 =>
          simp only [hc2, Except.bind] at h
          cases hc3 : checkDim dims Dim.minimality with
          | error e =>
            simp only [hc3, Except.bind] at h
            exact absurd h (by simp)
          | ok e3 =>
            simp only [hc3, Except.bind] at h
            by_cases hw : ow.trim.toLower = "a" ∨ ow.trim.toLower = "b" ∨ ow.trim.toLower = "tie"
            · refine ⟨dims, ow, rfl, rfl, ?_, hw⟩
              intro d
              cases d with
              | consistency => exact checkDim_ok hc1
              | completeness => exact checkDim_ok hc2
              | minimality => exact checkDim_ok hc3
            · rw [if_neg hw] at h
              exact absurd h (by simp)

theorem validate_ok_not_invalid {r : RawJudgement} {j : Judgement}
    (h : validate_judgement r = Except.ok j) : ¬ responseInvalid r := by
  obtain ⟨dims, ow, hdims, how, hall, hw⟩ := validate_ok_inv h
  intro hinv
  rcases hinv with ⟨d, hd⟩ | ⟨d, entry, hd, hab⟩ | ⟨d, entry, s, hd, hab, hrange⟩ | hwbad
  · obtain ⟨entry, he, _, _⟩ := hall d
    simp only [dimEntry, hdims] at hd
    rw [he] at hd
    exact Option.noConfusion hd
  · obtain ⟨entry2, he, ⟨sa, hsa, _, _⟩, ⟨sb, hsb, _, _⟩⟩ := hall d
    simp only [dimEntry, hdims] at hd
    rw [he] at hd
    obtain rfl := Option.some.inj hd
    rcases hab with h1 | h1
    · rw [hsa] at h1
      exact Option.noConfusion h1
    · rw [hsb] at h1
      exact Option.noConfusion h1
  · obtain ⟨entry2, he, ⟨sa, hsa, hsa1, hsa2⟩, ⟨sb, hsb, hsb1, hsb2⟩⟩ := hall d
    simp only [dimEntry, hdims] at hd
    rw [he] at hd
    obtain rfl := Option.some.inj hd
    rcases hab with h1 | h1
    · rw [hsa] at h1
      obtain rfl := Option.some.inj h1
      exact hrange ⟨hsa1, hsa2⟩
    · rw [hsb] at h1
      obtain rfl := Option.some.inj h1
      exact hrange ⟨hsb1, hsb2⟩
  · simp only [winnerUnrecognized, how] at hwbad
    exact hwbad hw

theorem judge_pairwise_ok {da db : String} {fr rr : RawJudgement} {m : MergedJudgement}
    (h : judge_pairwise da db fr rr = Except.ok m) :
    da.trim ≠ "" ∧ db.trim ≠ "" ∧
    (∃ jf, validate_judgement fr = Except.ok jf) ∧
    (∃ jr, validate_judgement rr = Except.ok jr) := by
  unfold judge_pairwise at h
  by_cases h1 : da.trim = ""
  · rw [if_pos h1] at h
    exact absurd h (by simp)
  · rw [if_neg h1] at h
    by_cases h2 : db.trim = ""
    · rw [if_pos h2] at h
      exact absurd h (by simp)
    · rw [if_neg h2] at h
      cases hf : validate_judgement fr with
      | error e =>
        simp only [hf, Bind.bind, Except.bind] at h
        exact absurd h (by simp)
      | ok jf =>
        simp only [hf, Bind.bind, Except.bind] at h
        cases hr : validate_judgement rr with
        | error e =>
          simp only [hr, Except.bind] at h
          exact absurd h (by simp)
        | ok jr =>
          exact ⟨h1, h2, ⟨jf, rfl⟩, ⟨jr, rfl⟩⟩

/-- C9: judge_pairwise yields an error (and hence no judgement at all)
whenever either diff is blank — independently of the oracle responses, so
before any call result matters — or either single-call response is invalid
per the claim's list: missing dimension, missing per-position score, score
outside [1,5], or unrecognized winner token. -/
theorem C9_judge_pairwise_errors (da db : String) (fr rr : RawJudgement)
    (h : da.trim = "" ∨ db.trim = "" ∨ responseInvalid fr ∨ responseInvalid rr) :
    ∃ e, judge_pairwise da db fr rr = Except.error e := by
  match hE : judge_pairwise da db fr rr with
  | .error e => exact ⟨e, rfl⟩
  | .ok m =>
    obtain ⟨h1, h2, ⟨jf, hjf⟩, ⟨jr, hjr⟩⟩ := judge_pairwise_ok hE
    rcases h with h | h | h | h
    · exact absurd h h1
    · exact absurd h h2
    · exact absurd h (validate_ok_not_invalid hjf)
    · exact absurd h (validate_ok_not_invalid hjr)

/-- A raw response missing its `dimensions` key entirely (so every rubric
dimension is missing). -/
def rawBad : RawJudgement :=
  { dimensions := none, overall_winner := none, reasoning := none }

/-- Witness for C9: a response with no dimensions is rejected. -/
theorem C9_witness :
    ∃ e, judge_pairwise "x" "y" rawBad rawBad = Except.error e :=
  C9_judge_pairwise_errors "x" "y" rawBad rawBad
    (Or.inr (Or.inr (Or.inl (Or.inl ⟨Dim.consistency, rfl⟩))))

end Bobbin
